import Mathlib

/-!
# Poll/response chunk transfer: responder (`Sender.c`) and initiator (`rx_sniff.c`)

Shallow embedding of the protocol core of the two programs:

* `Sender.get_chunk` and the body of the responder's `while (1)` loop in
  `Sender.c`;
* `RxSniff.rx_ok_cb`, the initiator's good-frame callback in `rx_sniff.c`.

Bytes (`uint8_t`) are `Fin 256`.  `int` / `int32_t` values are `Int`, and every
arithmetic result is passed through `wrap32`.  Static C arrays are lists whose
length is the declared array size; a write past the end of an array has no
defined behaviour in C and makes the embedded function return `none`.
-/

set_option maxRecDepth 100000

/-- One `uint8_t`. -/
abbrev Byte := Fin 256

/-- Two's complement reduction of an integer to the range of a 32-bit `int`. -/
def wrap32 (x : Int) : Int := (x + 2147483648) % 4294967296 - 2147483648

/-- Conversion of an `int` to `uint8_t` (reduction modulo 256). -/
def toU8 (x : Int) : Byte := ⟨(x % 256).toNat, by omega⟩

/-- C loop `for (int i = 0; i < n; i++) body(i)` acting on a state. -/
def forLoop {σ : Type} (n : Nat) (body : Nat → σ → σ) (s : σ) : σ :=
  (List.range n).foldl (fun acc i => body i acc) s

/-- C loop `for (int i = 0; i < n; i++) body(i)` whose body may fault. -/
def forLoopM {σ : Type} (n : Nat) (body : Nat → σ → Option σ) (s : σ) : Option σ :=
  (List.range n).foldlM (fun acc i => body i acc) s

/-- Array store `buf[i] = v`; a store past the end of the array faults. -/
def store (buf : List Byte) (i : Nat) (v : Byte) : Option (List Byte) :=
  if i < buf.length then some (buf.set i v) else none

/-- Call `memset(buf, v, n)` on an array holding at least `n` bytes. -/
def memset (buf : List Byte) (v : Byte) (n : Nat) : List Byte :=
  List.replicate n v ++ buf.drop n

/-- Call `memcpy(&dst[off], src, n)` with `off + n` within `dst` and `n` within `src`. -/
def memcpy (dst : List Byte) (off : Nat) (src : List Byte) (n : Nat) : List Byte :=
  dst.take off ++ src.take n ++ dst.drop (off + n)

/-- Modelled from the spec: the radio driver call `dwt_readrxdata(buffer, length, 0)`
("read_received_frame"), which copies the first `length` bytes of the received
frame `rx` into `buffer`.  The driver is not part of the sources; copying more
bytes than `buffer` holds is a write past the end of the array and yields `none`. -/
def dwt_readrxdata (buffer : List Byte) (rx : List Byte) (length : Nat) : Option (List Byte) :=
  if length ≤ buffer.length then
    some ((List.range length).map (fun i => rx.getD i 0) ++ buffer.drop length)
  else none

/-- Modelled from the spec: the blob source's `length()`; `sizeArray()` is declared in
`deca_spi.c`, which is not part of the sources. -/
def sizeArray (blob : List Byte) : Int := (blob.length : Int)

/-- Modelled from the spec: the blob source's `byte_at(offset)`; `hexArray()` is declared
in `deca_spi.c`, which is not part of the sources.  Total over `[0, length())`. -/
def hexArray (blob : List Byte) (offset : Int) : Byte := blob.getD offset.toNat 0

namespace Sender

/-- Macro `MAX_PAYLOAD_LEN` ("Payload is 66 bytes"). -/
def MAX_PAYLOAD_LEN : Nat := 66

/-- Macro `DATA_FRAME_SN_IDX`. -/
def DATA_FRAME_SN_IDX : Nat := 2

/-- Macro `DATA_FRAME_DEST_IDX`. -/
def DATA_FRAME_DEST_IDX : Nat := 5

/-- Macro `BLINK_FRAME_SRC_IDX`. -/
def BLINK_FRAME_SRC_IDX : Nat := 2

/-- Function `get_chunk(index, chunk)` of `Sender.c`; `chunk` is the 66-byte output
buffer on entry and the result is the buffer on return. -/
def get_chunk (blob : List Byte) (index : Int) (chunk : List Byte) : List Byte :=
  let start_index := wrap32 ((index - 1) * (MAX_PAYLOAD_LEN : Int))
  let bound := wrap32 (sizeArray blob)
  let chunk :=
    if index = 0 then
      forLoop MAX_PAYLOAD_LEN (fun i c => c.set i 0xFF) chunk
    else chunk
  if index > 0 then
    if start_index < bound then
      forLoop MAX_PAYLOAD_LEN (fun i c =>
        if wrap32 (start_index + (i : Int)) < bound then
          c.set i (hexArray blob (wrap32 (start_index + (i : Int))))
        else
          c.set i 0xAA) chunk
    else
      forLoop MAX_PAYLOAD_LEN (fun i c =>
        if wrap32 (start_index + (i : Int)) < bound then
          c.set i 0xAA
        else c) chunk
  else chunk


/-- Static storage of `Sender.c`: `tx_msg[MAX_PAYLOAD_LEN + 21]`, `user_input[MAX_PAYLOAD_LEN]`
and `rx_buffer[32]`. -/
structure State where
  tx_msg : List Byte
  user_input : List Byte
  rx_buffer : List Byte
deriving DecidableEq, Repr

/-- The three arrays have their declared sizes. -/
def State.WF (st : State) : Prop :=
  st.tx_msg.length = 87 ∧ st.user_input.length = 66 ∧ st.rx_buffer.length = 32

/-- Outcome of waiting on the status register: a good frame (`SYS_STATUS_RXFCG_BIT_MASK`),
given by its bytes, or a receive error. -/
inductive RxEvent where
  | goodFrame (frame : List Byte)
  | rxError
deriving DecidableEq, Repr

/-- Local array `header[]` of `app_main` (19 bytes; `'D'` is 0x44 and `'W'` is 0x57). -/
def header : List Byte :=
  [0x41, 0x8C, 0x00,
   0x9A, 0x60,
   0x00, 0x00, 0x00, 0x00,
   0x00, 0x00, 0x00, 0x00,
   0x44, 0x57,
   0x10,
   0x00,
   0x00, 0x00]

/-- Validation of the received frame in `app_main`:
`frame_len == 14 && rx_buffer[0] == 0xC5 && rx_buffer[10] == 0x43 && rx_buffer[11] == 0x2`. -/
def poll_valid (frame_len : Nat) (rx_buffer : List Byte) : Bool :=
  frame_len == 14 &&
  rx_buffer.getD 0 0 == 0xC5 &&
  rx_buffer.getD 10 0 == 0x43 &&
  rx_buffer.getD 11 0 == 0x2

/-- Body of the validated branch of `app_main`, from `memset(tx_msg, ...)` to the loop that
copies the source address of the blink into the destination address. -/
def build_response (blob : List Byte) (st : State) : State :=
  let tx_msg := memset st.tx_msg 0 (MAX_PAYLOAD_LEN + 21)
  let tx_msg := memcpy tx_msg 0 header header.length
  let tx_msg := tx_msg.set DATA_FRAME_SN_IDX (st.rx_buffer.getD 1 0)
  let user_input :=
    get_chunk blob (((tx_msg.getD DATA_FRAME_SN_IDX 0).val : Int) - 5) st.user_input
  let input_len := MAX_PAYLOAD_LEN
  let tx_msg := memcpy tx_msg header.length user_input input_len
  let tx_msg := forLoop 8 (fun i t =>
    t.set (DATA_FRAME_DEST_IDX + i) (st.rx_buffer.getD (BLINK_FRAME_SRC_IDX + i) 0)) tx_msg
  { st with tx_msg := tx_msg, user_input := user_input }

/-- One pass through the body of `while (1)` in `app_main`, after the status register
reported `ev`.  The result is the new static storage and the frame handed to
`dwt_writetxdata` / `dwt_starttx`, if any; `none` is a fault (store past `rx_buffer`). -/
def loop_iteration (blob : List Byte) (st : State) (ev : RxEvent) :
    Option (State × Option (List Byte)) :=
  match ev with
  | RxEvent.rxError => some (st, none)
  | RxEvent.goodFrame frame =>
    let frame_len := frame.length
    let read :=
      if frame_len ≤ 1023 then dwt_readrxdata st.rx_buffer frame frame_len
      else some st.rx_buffer
    match read with
    | none => none
    | some rx_buffer =>
      let st1 : State := { st with rx_buffer := rx_buffer }
      if poll_valid frame_len rx_buffer then
        let st2 := build_response blob st1
        some (st2, some st2.tx_msg)
      else
        some (st1, none)

end Sender

namespace RxSniff

/-- Macro `BLINK_FRAME_SN_IDX`. -/
def BLINK_FRAME_SN_IDX : Nat := 1

/-- Macro `DFLT_TX_DELAY_MS`. -/
def DFLT_TX_DELAY_MS : Int := 0

/-- Initial value of the poll frame `tx_msg[]` of `rx_sniff.c`
(`"DECAWAVE"` is 0x44 0x45 0x43 0x41 0x57 0x41 0x56 0x45). -/
def tx_msg_init : List Byte :=
  [0xC5, 0, 0x44, 0x45, 0x43, 0x41, 0x57, 0x41, 0x56, 0x45, 0x43, 0x02, 0, 0]

/-- Static storage of `rx_sniff.c`: `tx_msg[14]`, `rx_buffer[92]`, `needed[0]` (an `int32_t`)
and `tx_delay_ms`. -/
structure State where
  tx_msg : List Byte
  rx_buffer : List Byte
  needed : Int
  tx_delay_ms : Int
deriving DecidableEq, Repr

/-- The two arrays have their declared sizes. -/
def State.WF (st : State) : Prop :=
  st.tx_msg.length = 14 ∧ st.rx_buffer.length = 92

/-- Static storage when `app_main` enters its loop: `needed[0] = 0`, `tx_delay_ms = -1`. -/
def init : State :=
  { tx_msg := tx_msg_init, rx_buffer := List.replicate 92 0, needed := 0, tx_delay_ms := -1 }

/-- Callback `rx_ok_cb(cb_data)`; `frame` is the received frame, `cb_data->datalength` its
length.  The macro `FRAME_LEN_MAX` comes from `shared_defines.h`, which is not part of the
sources, and is a parameter. -/
def rx_ok_cb (FRAME_LEN_MAX : Nat) (st : State) (frame : List Byte) : Option State :=
  let datalength := frame.length
  match forLoopM FRAME_LEN_MAX (fun i b => store b i 0) st.rx_buffer with
  | none => none
  | some cleared =>
    let st1 : State := { st with rx_buffer := cleared }
    let after : Option State :=
      if datalength ≤ FRAME_LEN_MAX then
        match dwt_readrxdata st1.rx_buffer frame datalength with
        | none => none
        | some rx_buffer =>
          let st2 : State := { st1 with rx_buffer := rx_buffer }
          if ((rx_buffer.getD 2 0).val : Int) = st2.needed then
            let needed := wrap32 (st2.needed + 1)
            some { st2 with needed := needed,
                            tx_msg := st2.tx_msg.set BLINK_FRAME_SN_IDX (toU8 needed) }
          else some st2
      else some st1
    match after with
    | none => none
    | some st3 => some { st3 with tx_delay_ms := DFLT_TX_DELAY_MS }

/-- The poll frame as it is received: the 12 bytes of `tx_msg` written by the program
followed by the two frame check-sum bytes set by the DW IC. -/
def poll_on_air (tx_msg : List Byte) (c1 c2 : Byte) : List Byte :=
  tx_msg.take 12 ++ [c1, c2]

end RxSniff

/-! ## Vocabulary used to state the properties -/

/-- Store `v` at position `i` when the option holds a value `v`, else keep the array. -/
def storeOpt (c : List Byte) (i : Nat) : Option Byte → List Byte
  | some v => c.set i v
  | none => c

/-- Content of `rx_buffer` after `dwt_readrxdata(rx_buffer, frame_len, 0)`. -/
def rx_after (rx_buffer frame : List Byte) : List Byte :=
  (List.range frame.length).map (fun i => frame.getD i 0) ++ rx_buffer.drop frame.length

namespace Sender

/-- Bytes of chunk `k` (counted from 1) when it starts inside the blob. -/
def chunk_bytes (blob : List Byte) (k : Nat) : List Byte :=
  (List.range 66).map (fun i =>
    if (k - 1) * 66 + i < blob.length then blob.getD ((k - 1) * 66 + i) 0 else 0xAA)

/-- The blob followed by the `0xAA` fill up to `total` bytes. -/
def padded (blob : List Byte) (total : Nat) : List Byte :=
  blob ++ List.replicate (total - blob.length) 0xAA

/-- Concatenation of the results of `get_chunk(1, ..)`, ..., `get_chunk(n, ..)`; the call
for index `j + 1` finds `prior j` in the output buffer. -/
def reassemble (blob : List Byte) (n : Nat) (prior : Nat → List Byte) : List Byte :=
  ((List.range n).map (fun j => get_chunk blob ((j + 1 : Nat) : Int) (prior j))).flatten

/-- A blob of 200 bytes, byte `i` being `i`. -/
def blob200 : List Byte := (List.range 200).map (fun i => toU8 (i : Int))

/-- Static storage of the responder filled with zero bytes. -/
def zeroed : State :=
  { tx_msg := List.replicate 87 0, user_input := List.replicate 66 0,
    rx_buffer := List.replicate 32 0 }

/-- Static storage of the responder after an exchange that left 66 bytes `0x01` in
`user_input`. -/
def stale : State :=
  { tx_msg := List.replicate 87 0, user_input := List.replicate 66 1,
    rx_buffer := List.replicate 32 0 }

/-- The response frame assembled for sequence byte `b1`, source address `a0 .. a7` and
payload `u`. -/
def response_bytes (b1 a0 a1 a2 a3 a4 a5 a6 a7 : Byte) (u : List Byte) : List Byte :=
  [0x41, 0x8C, b1, 0x9A, 0x60, a0, a1, a2, a3, a4, a5, a6, a7, 0x44, 0x57, 0x10, 0x00, 0x00, 0x00]
    ++ u ++ [0x00, 0x00]

/-- Static storage after a valid poll with sequence byte `b1` and source address
`a0 .. a7` has been answered. -/
def answered (blob : List Byte) (st : State) (b1 a0 a1 a2 a3 a4 a5 a6 a7 c1 c2 : Byte) : State :=
  { tx_msg := response_bytes b1 a0 a1 a2 a3 a4 a5 a6 a7
      (get_chunk blob ((b1.val : Int) - 5) st.user_input),
    user_input := get_chunk blob ((b1.val : Int) - 5) st.user_input,
    rx_buffer := [0xC5, b1, a0, a1, a2, a3, a4, a5, a6, a7, 0x43, 0x02, c1, c2]
      ++ st.rx_buffer.drop 14 }

/-- The four conditions of the validation in `app_main`, stated on the received frame. -/
def is_poll (frame : List Byte) : Prop :=
  frame.length = 14 ∧ frame.getD 0 0 = 0xC5 ∧ frame.getD 10 0 = 0x43 ∧ frame.getD 11 0 = 0x2

end Sender

namespace RxSniff

/-- A response frame of 87 bytes whose sequence echo (byte 2) is `s`. -/
def response_echoing (s : Byte) : List Byte :=
  Sender.response_bytes s 0x44 0x45 0x43 0x41 0x57 0x41 0x56 0x45 (List.replicate 66 0xFF)

/-- Run of `k` exchanges: each time `rx_ok_cb` receives a response whose sequence echo is
the sequence byte `tx_msg[1]` of the current poll frame. -/
def feed (FRAME_LEN_MAX : Nat) : Nat → State → Option State
  | 0, st => some st
  | k + 1, st =>
    match rx_ok_cb FRAME_LEN_MAX st (response_echoing (st.tx_msg.getD BLINK_FRAME_SN_IDX 0)) with
    | none => none
    | some st' => feed FRAME_LEN_MAX k st'

/-- Static storage of the initiator once 255 responses have been accepted: `needed[0]` is
255 and the poll frame carries sequence byte 255. -/
def at255 : State :=
  { tx_msg := tx_msg_init.set BLINK_FRAME_SN_IDX 255, rx_buffer := List.replicate 92 0,
    needed := 255, tx_delay_ms := -1 }

/-- Static storage after `rx_ok_cb` has read `frame` and found its byte 2 different from
`needed[0]`. -/
def ignored (FRAME_LEN_MAX : Nat) (st : State) (frame : List Byte) : State :=
  { tx_msg := st.tx_msg,
    rx_buffer := rx_after
      (List.replicate FRAME_LEN_MAX 0 ++ st.rx_buffer.drop FRAME_LEN_MAX) frame,
    needed := st.needed,
    tx_delay_ms := 0 }

end RxSniff

/-! ## Auxiliary facts about the embedding -/

theorem wrap32_eq (x : Int) (h1 : -2147483648 ≤ x) (h2 : x < 2147483648) : wrap32 x = x := by
  unfold wrap32; omega

theorem forLoop_succ {σ : Type} (n : Nat) (body : Nat → σ → σ) (s : σ) :
    forLoop (n + 1) body s = body n (forLoop n body s) := by
  simp [forLoop, List.range_succ]

theorem set_after_init (p c : List Byte) (n : Nat) (v : Byte) (hp : p.length = n)
    (hn : n < c.length) :
    (p ++ c.drop n).set n v = (p ++ [v]) ++ c.drop (n + 1) := by
  subst hp
  rw [List.drop_eq_getElem_cons hn, List.set_append]
  simp only [lt_self_iff_false, if_false, Nat.sub_self, List.set_cons_zero, List.append_assoc,
    List.singleton_append]

theorem keep_after_init (p c : List Byte) (n : Nat) (hn : n < c.length) :
    p ++ c.drop n = (p ++ [c.getD n 0]) ++ c.drop (n + 1) := by
  rw [List.drop_eq_getElem_cons hn]
  simp [List.getD_eq_getElem?_getD, List.getElem?_eq_getElem hn]

/-- A loop whose `i`-th pass stores `upd i` at position `i`, or stores nothing, rewrites
the first `n` positions and keeps the rest. -/
theorem forLoop_store (body : Nat → List Byte → List Byte) (upd : Nat → Option Byte)
    (hbody : ∀ i c, body i c = storeOpt c i (upd i))
    (c : List Byte) (n : Nat) (hn : n ≤ c.length) :
    forLoop n body c = (List.range n).map (fun j => (upd j).getD (c.getD j 0)) ++ c.drop n := by
  induction n with
  | zero => simp [forLoop]
  | succ n ih =>
    have hlt : n < c.length := by omega
    rw [forLoop_succ, ih (by omega), hbody, List.range_succ, List.map_append]
    simp only [List.map_cons, List.map_nil]
    cases h : upd n with
    | some v =>
      simp only [Option.getD_some, storeOpt]
      exact set_after_init _ c n v (by simp) hlt
    | none =>
      simp only [Option.getD_none, storeOpt]
      exact keep_after_init _ c n hlt

theorem map_range_getD (c : List Byte) (n : Nat) (hn : c.length = n) :
    (List.range n).map (fun j => c.getD j 0) = c := by
  subst hn
  apply List.ext_getElem
  · simp
  · intro i h1 h2
    simp [List.getD_eq_getElem?_getD, List.getElem?_eq_getElem h2]

namespace Sender

theorem get_chunk_zero (blob chunk : List Byte) (hlen : chunk.length = 66) :
    get_chunk blob 0 chunk = List.replicate 66 0xFF := by
  unfold get_chunk
  simp only [if_true, gt_iff_lt, lt_self_iff_false, if_false, MAX_PAYLOAD_LEN]
  have hloop := forLoop_store (fun i c => c.set i (0xFF : Byte)) (fun _ => some 0xFF)
    (fun i c => rfl) chunk 66 (by omega)
  rw [hloop, List.drop_of_length_le (by omega), List.append_nil]
  simp only [Option.getD_some]
  rw [List.map_const', List.length_range]

theorem get_chunk_neg (blob chunk : List Byte) (index : Int) (h : index < 0) :
    get_chunk blob index chunk = chunk := by
  unfold get_chunk
  have h0 : ¬ index = 0 := by omega
  have h1 : ¬ index > 0 := by omega
  simp only [h0, h1, if_false]

theorem get_chunk_in_range (blob chunk : List Byte) (k : Nat) (hk : 1 ≤ k)
    (hlen : chunk.length = 66) (hin : (k - 1) * 66 < blob.length)
    (hL : blob.length < 2147483648) (hfit : (k - 1) * 66 + 65 < 2147483648) :
    get_chunk blob (k : Int) chunk = chunk_bytes blob k := by
  obtain ⟨m, rfl⟩ : ∃ m, k = m + 1 := ⟨k - 1, by omega⟩
  simp only [Nat.add_sub_cancel] at hin hfit
  unfold get_chunk chunk_bytes
  have h0 : ¬ ((m + 1 : Nat) : Int) = 0 := by omega
  have h1 : ((m + 1 : Nat) : Int) > 0 := by omega
  have hs : wrap32 ((((m + 1 : Nat) : Int) - 1) * (66 : Int)) = ((m * 66 : Nat) : Int) := by
    rw [wrap32_eq]
    · push_cast; omega
    · omega
    · omega
  have hb : wrap32 (sizeArray blob) = (blob.length : Int) := by
    unfold sizeArray
    rw [wrap32_eq]
    · omega
    · omega
  have hlt : ((m * 66 : Nat) : Int) < (blob.length : Int) := by omega
  simp only [MAX_PAYLOAD_LEN, Nat.cast_ofNat, h0, h1, if_false, if_true, hs, hb, hlt]
  have hloop := forLoop_store
    (fun i c =>
      if wrap32 (((m * 66 : Nat) : Int) + (i : Int)) < (blob.length : Int) then
        c.set i (hexArray blob (wrap32 (((m * 66 : Nat) : Int) + (i : Int))))
      else c.set i (0xAA : Byte))
    (fun i =>
      some (if wrap32 (((m * 66 : Nat) : Int) + (i : Int)) < (blob.length : Int) then
        hexArray blob (wrap32 (((m * 66 : Nat) : Int) + (i : Int))) else 0xAA))
    (fun i c => by
      by_cases h : wrap32 (((m * 66 : Nat) : Int) + (i : Int)) < (blob.length : Int)
      · show ite _ _ _ = storeOpt c i (some (ite _ _ _))
        rw [if_pos h, if_pos h]; rfl
      · show ite _ _ _ = storeOpt c i (some (ite _ _ _))
        rw [if_neg h, if_neg h]; rfl) chunk 66 (by omega)
  rw [hloop, List.drop_of_length_le (by omega), List.append_nil]
  apply List.map_congr_left
  intro i hi
  have hi66 : i < 66 := List.mem_range.mp hi
  have hw : wrap32 (((m * 66 : Nat) : Int) + (i : Int)) = ((m * 66 + i : Nat) : Int) := by
    rw [wrap32_eq]
    · push_cast; rfl
    · omega
    · omega
  simp only [Option.getD_some, hw, hexArray, Int.toNat_ofNat, Nat.cast_lt, Nat.add_sub_cancel]

theorem get_chunk_beyond (blob chunk : List Byte) (k : Nat) (hk : 1 ≤ k)
    (hlen : chunk.length = 66) (hout : blob.length ≤ (k - 1) * 66)
    (hfit : (k - 1) * 66 + 65 < 2147483648) :
    get_chunk blob (k : Int) chunk = chunk := by
  obtain ⟨m, rfl⟩ : ∃ m, k = m + 1 := ⟨k - 1, by omega⟩
  simp only [Nat.add_sub_cancel] at hout hfit
  unfold get_chunk
  have h0 : ¬ ((m + 1 : Nat) : Int) = 0 := by omega
  have h1 : ((m + 1 : Nat) : Int) > 0 := by omega
  have hs : wrap32 ((((m + 1 : Nat) : Int) - 1) * (66 : Int)) = ((m * 66 : Nat) : Int) := by
    rw [wrap32_eq]
    · push_cast; omega
    · omega
    · omega
  have hb : wrap32 (sizeArray blob) = (blob.length : Int) := by
    unfold sizeArray
    rw [wrap32_eq]
    · omega
    · omega
  have hlt : ¬ ((m * 66 : Nat) : Int) < (blob.length : Int) := by omega
  simp only [MAX_PAYLOAD_LEN, Nat.cast_ofNat, h0, h1, if_false, if_true, hs, hb, hlt]
  have hloop := forLoop_store
    (fun i c =>
      if wrap32 (((m * 66 : Nat) : Int) + (i : Int)) < (blob.length : Int) then
        c.set i (0xAA : Byte)
      else c)
    (fun i =>
      if wrap32 (((m * 66 : Nat) : Int) + (i : Int)) < (blob.length : Int) then some 0xAA else none)
    (fun i c => by
      by_cases h : wrap32 (((m * 66 : Nat) : Int) + (i : Int)) < (blob.length : Int)
      · show ite _ _ _ = storeOpt c i (ite _ _ _)
        rw [if_pos h, if_pos h]; rfl
      · show ite _ _ _ = storeOpt c i (ite _ _ _)
        rw [if_neg h, if_neg h]; rfl) chunk 66 (by omega)
  rw [hloop, List.drop_of_length_le (by omega), List.append_nil]
  refine Eq.trans ?_ (map_range_getD chunk 66 hlen)
  apply List.map_congr_left
  intro i hi
  have hi66 : i < 66 := List.mem_range.mp hi
  have hw : wrap32 (((m * 66 : Nat) : Int) + (i : Int)) = ((m * 66 + i : Nat) : Int) := by
    rw [wrap32_eq]
    · push_cast; rfl
    · omega
    · omega
  have hge : ¬ ((m * 66 + i : Nat) : Int) < (blob.length : Int) := by omega
  show Option.getD (ite _ _ _) _ = _
  rw [hw, if_neg hge, Option.getD_none]

end Sender

theorem forLoop_length (body : Nat → List Byte → List Byte)
    (hbody : ∀ i c, (body i c).length = c.length) (c : List Byte) (n : Nat) :
    (forLoop n body c).length = c.length := by
  induction n with
  | zero => rfl
  | succ n ih => rw [forLoop_succ, hbody, ih]

namespace Sender

theorem get_chunk_length (blob chunk : List Byte) (index : Int) :
    (get_chunk blob index chunk).length = chunk.length := by
  unfold get_chunk
  by_cases h0 : index = 0
  · have h1 : ¬ index > 0 := by omega
    simp only [h0, if_true, gt_iff_lt, lt_self_iff_false, if_false]
    exact forLoop_length _ (fun i c => List.length_set _ _ _) _ _
  · simp only [h0, if_false]
    by_cases h1 : index > 0
    · rw [if_pos h1]
      by_cases h2 : wrap32 ((index - 1) * (MAX_PAYLOAD_LEN : Int)) < wrap32 (sizeArray blob)
      · rw [if_pos h2]
        apply forLoop_length
        intro i c
        by_cases h3 : wrap32 (wrap32 ((index - 1) * (MAX_PAYLOAD_LEN : Int)) + (i : Int))
            < wrap32 (sizeArray blob)
        · rw [if_pos h3, List.length_set]
        · rw [if_neg h3, List.length_set]
      · rw [if_neg h2]
        apply forLoop_length
        intro i c
        by_cases h3 : wrap32 (wrap32 ((index - 1) * (MAX_PAYLOAD_LEN : Int)) + (i : Int))
            < wrap32 (sizeArray blob)
        · rw [if_pos h3, List.length_set]
        · rw [if_neg h3]
    · rw [if_neg h1]

theorem assemble_eq (tx u : List Byte) (b0 b1 a0 a1 a2 a3 a4 a5 a6 a7 : Byte) (rest : List Byte)
    (htx : tx.length = 87) (hu : u.length = 66) :
    forLoop 8 (fun i t =>
        t.set (DATA_FRAME_DEST_IDX + i)
          ((b0 :: b1 :: a0 :: a1 :: a2 :: a3 :: a4 :: a5 :: a6 :: a7 :: rest).getD
            (BLINK_FRAME_SRC_IDX + i) 0))
      (memcpy
        ((memcpy (memset tx 0 (MAX_PAYLOAD_LEN + 21)) 0 header header.length).set
          DATA_FRAME_SN_IDX b1)
        header.length u MAX_PAYLOAD_LEN)
      = response_bytes b1 a0 a1 a2 a3 a4 a5 a6 a7 u := by
  have h1 : memset tx 0 (MAX_PAYLOAD_LEN + 21) = List.replicate 87 0 := by
    unfold memset
    rw [List.drop_of_length_le (by simp only [MAX_PAYLOAD_LEN]; omega), List.append_nil]
    rfl
  have h2 : u.take MAX_PAYLOAD_LEN = u := List.take_of_length_le (by simp only [MAX_PAYLOAD_LEN]; omega)
  rw [h1]
  unfold memcpy
  rw [h2]
  rfl


theorem cons_of_length_succ (l : List Byte) (n : Nat) (h : l.length = n + 1) :
    ∃ b t, l = b :: t ∧ t.length = n := by
  cases l with
  | nil => simp at h
  | cons b t => exact ⟨b, t, rfl, by simpa using h⟩

theorem frame_of_length_14 (l : List Byte) (h : l.length = 14) :
    ∃ b0 b1 a0 a1 a2 a3 a4 a5 a6 a7 e0 e1 c1 c2,
      l = [b0, b1, a0, a1, a2, a3, a4, a5, a6, a7, e0, e1, c1, c2] := by
  obtain ⟨b0, l0, rfl, h0⟩ := cons_of_length_succ l _ h
  obtain ⟨b1, l1, rfl, h1⟩ := cons_of_length_succ l0 _ h0
  obtain ⟨a0, l2, rfl, h2⟩ := cons_of_length_succ l1 _ h1
  obtain ⟨a1, l3, rfl, h3⟩ := cons_of_length_succ l2 _ h2
  obtain ⟨a2, l4, rfl, h4⟩ := cons_of_length_succ l3 _ h3
  obtain ⟨a3, l5, rfl, h5⟩ := cons_of_length_succ l4 _ h4
  obtain ⟨a4, l6, rfl, h6⟩ := cons_of_length_succ l5 _ h5
  obtain ⟨a5, l7, rfl, h7⟩ := cons_of_length_succ l6 _ h6
  obtain ⟨a6, l8, rfl, h8⟩ := cons_of_length_succ l7 _ h7
  obtain ⟨a7, l9, rfl, h9⟩ := cons_of_length_succ l8 _ h8
  obtain ⟨e0, l10, rfl, h10⟩ := cons_of_length_succ l9 _ h9
  obtain ⟨e1, l11, rfl, h11⟩ := cons_of_length_succ l10 _ h10
  obtain ⟨c1, l12, rfl, h12⟩ := cons_of_length_succ l11 _ h11
  obtain ⟨c2, l13, rfl, h13⟩ := cons_of_length_succ l12 _ h12
  rw [List.length_eq_zero] at h13
  subst h13
  exact ⟨b0, b1, a0, a1, a2, a3, a4, a5, a6, a7, e0, e1, c1, c2, rfl⟩

theorem sn_readback (tx : List Byte) (b1 : Byte) (htx : tx.length = 87) :
    ((memcpy (memset tx 0 (MAX_PAYLOAD_LEN + 21)) 0 header header.length).set
      DATA_FRAME_SN_IDX b1).getD DATA_FRAME_SN_IDX 0 = b1 := by
  have h1 : memset tx 0 (MAX_PAYLOAD_LEN + 21) = List.replicate 87 0 := by
    unfold memset
    rw [List.drop_of_length_le (by simp only [MAX_PAYLOAD_LEN]; omega), List.append_nil]
    rfl
  rw [h1]
  rfl

theorem loop_iteration_poll (blob : List Byte) (st : State) (hwf : st.WF)
    (b1 a0 a1 a2 a3 a4 a5 a6 a7 c1 c2 : Byte) :
    loop_iteration blob st
        (RxEvent.goodFrame [0xC5, b1, a0, a1, a2, a3, a4, a5, a6, a7, 0x43, 0x02, c1, c2]) =
      some (answered blob st b1 a0 a1 a2 a3 a4 a5 a6 a7 c1 c2,
        some (response_bytes b1 a0 a1 a2 a3 a4 a5 a6 a7
          (get_chunk blob ((b1.val : Int) - 5) st.user_input))) := by
  obtain ⟨htx, hui, hrx⟩ := hwf
  have hread : dwt_readrxdata st.rx_buffer
      [0xC5, b1, a0, a1, a2, a3, a4, a5, a6, a7, 0x43, 0x02, c1, c2] 14 =
      some ([0xC5, b1, a0, a1, a2, a3, a4, a5, a6, a7, 0x43, 0x02, c1, c2]
        ++ st.rx_buffer.drop 14) := by
    unfold dwt_readrxdata
    rw [if_pos (by omega)]
    rfl
  have hasm := assemble_eq st.tx_msg (get_chunk blob ((b1.val : Int) - 5) st.user_input)
    0xC5 b1 a0 a1 a2 a3 a4 a5 a6 a7 (0x43 :: 0x02 :: c1 :: c2 :: st.rx_buffer.drop 14)
    htx (by rw [get_chunk_length, hui])
  unfold loop_iteration
  simp only [List.length_cons, List.length_nil]
  rw [if_pos (by omega), hread]
  simp only []
  have hv : poll_valid 14 ([0xC5, b1, a0, a1, a2, a3, a4, a5, a6, a7, 0x43, 0x02, c1, c2]
        ++ st.rx_buffer.drop 14) = true := rfl
  rw [if_pos hv]
  unfold build_response answered
  simp only []
  have hg1 : ([0xC5, b1, a0, a1, a2, a3, a4, a5, a6, a7, 0x43, 0x02, c1, c2]
      ++ st.rx_buffer.drop 14).getD 1 0 = b1 := rfl
  rw [hg1, sn_readback st.tx_msg b1 htx, ← hasm]
  rfl


theorem poll_valid_iff (n : Nat) (rx : List Byte) :
    poll_valid n rx = true ↔
      n = 14 ∧ rx.getD 0 0 = 0xC5 ∧ rx.getD 10 0 = 0x43 ∧ rx.getD 11 0 = 0x2 := by
  unfold poll_valid
  simp only [Bool.and_eq_true, beq_iff_eq, and_assoc]

theorem poll_valid_rx_after (rx_buffer frame : List Byte) :
    poll_valid frame.length (rx_after rx_buffer frame) = true ↔ is_poll frame := by
  rw [poll_valid_iff]
  unfold is_poll
  constructor
  · rintro ⟨h14, h⟩
    obtain ⟨b0, b1, a0, a1, a2, a3, a4, a5, a6, a7, e0, e1, c1, c2, rfl⟩ :=
      frame_of_length_14 frame h14
    exact ⟨h14, h⟩
  · rintro ⟨h14, h⟩
    obtain ⟨b0, b1, a0, a1, a2, a3, a4, a5, a6, a7, e0, e1, c1, c2, rfl⟩ :=
      frame_of_length_14 frame h14
    exact ⟨h14, h⟩

/-- A frame that fits `rx_buffer` and fails the validation is read into `rx_buffer` and
nothing else happens. -/
theorem loop_iteration_not_poll (blob : List Byte) (st : State) (frame : List Byte)
    (hrx : st.rx_buffer.length = 32) (hfit : frame.length ≤ 32) (hbad : ¬ is_poll frame) :
    loop_iteration blob st (RxEvent.goodFrame frame) =
      some ({ st with rx_buffer := rx_after st.rx_buffer frame }, none) := by
  have hread : dwt_readrxdata st.rx_buffer frame frame.length =
      some (rx_after st.rx_buffer frame) := by
    unfold dwt_readrxdata
    rw [if_pos (by omega)]
    rfl
  have hv : ¬ poll_valid frame.length (rx_after st.rx_buffer frame) = true := by
    rw [poll_valid_rx_after]; exact hbad
  unfold loop_iteration
  simp only []
  rw [if_pos (by omega), hread]
  simp only []
  rw [if_neg hv]

/-- A frame longer than `rx_buffer` (and within the 1023-byte guard) is copied past the end
of `rx_buffer`. -/
theorem loop_iteration_fault (blob : List Byte) (st : State) (frame : List Byte)
    (hrx : st.rx_buffer.length = 32) (hlong : 32 < frame.length) (hmax : frame.length ≤ 1023) :
    loop_iteration blob st (RxEvent.goodFrame frame) = none := by
  have hread : dwt_readrxdata st.rx_buffer frame frame.length = none := by
    unfold dwt_readrxdata
    rw [if_neg (by omega)]
  unfold loop_iteration
  simp only []
  rw [if_pos hmax, hread]

end Sender

theorem forLoopM_succ {σ : Type} (n : Nat) (body : Nat → σ → Option σ) (s : σ) :
    forLoopM (n + 1) body s = (forLoopM n body s).bind (body n) := by
  unfold forLoopM
  rw [List.range_succ, List.foldlM_append]
  cases h : List.foldlM (fun acc i => body i acc) s (List.range n) with
  | none => rfl
  | some x =>
    show List.foldlM (fun acc i => body i acc) x [n] = body n x
    rw [List.foldlM_cons]
    cases body n x <;> rfl

/-- The clearing loop `for (i = 0; i < n; i++) buf[i] = 0` on an array of at least `n` bytes. -/
theorem forLoopM_clear (buf : List Byte) (n : Nat) (hn : n ≤ buf.length) :
    forLoopM n (fun i b => store b i 0) buf = some (List.replicate n 0 ++ buf.drop n) := by
  induction n with
  | zero => rfl
  | succ n ih =>
    have hlt : n < buf.length := by omega
    rw [forLoopM_succ, ih (by omega)]
    show store (List.replicate n 0 ++ buf.drop n) n 0 = _
    unfold store
    rw [if_pos (by simp only [List.length_append, List.length_replicate, List.length_drop]; omega)]
    rw [set_after_init _ buf n 0 (List.length_replicate _ _) hlt, List.replicate_succ']

/-- The clearing loop runs past the end of an array shorter than `n` bytes. -/
theorem forLoopM_clear_fault (buf : List Byte) (n : Nat) (hn : buf.length < n) :
    forLoopM n (fun i b => store b i 0) buf = none := by
  induction n with
  | zero => omega
  | succ n ih =>
    rw [forLoopM_succ]
    by_cases hle : n ≤ buf.length
    · have heq : n = buf.length := by omega
      rw [forLoopM_clear buf n hle]
      show store (List.replicate n 0 ++ buf.drop n) n 0 = none
      unfold store
      rw [if_neg (by simp only [List.length_append, List.length_replicate, List.length_drop]; omega)]
    · rw [ih (by omega)]
      rfl

theorem getD_rx_after (rx_buffer frame : List Byte) (j : Nat) (hj : j < frame.length) :
    (rx_after rx_buffer frame).getD j 0 = frame.getD j 0 := by
  unfold rx_after
  rw [List.getD_append _ _ _ _ (by simp only [List.length_map, List.length_range]; exact hj)]
  simp only [List.getD_eq_getElem?_getD, List.getElem?_map, List.getElem?_range hj,
    Option.map_some', Option.getD_some]

namespace RxSniff

theorem rx_ok_cb_read (FRAME_LEN_MAX : Nat) (st : State) (frame : List Byte)
    (hrx : st.rx_buffer.length = 92) (hmax : FRAME_LEN_MAX ≤ 92)
    (hlen : frame.length ≤ FRAME_LEN_MAX) :
    rx_ok_cb FRAME_LEN_MAX st frame =
      if (((rx_after (List.replicate FRAME_LEN_MAX 0 ++ st.rx_buffer.drop FRAME_LEN_MAX)
          frame).getD 2 0).val : Int) = st.needed then
        some { tx_msg := st.tx_msg.set BLINK_FRAME_SN_IDX (toU8 (wrap32 (st.needed + 1))),
               rx_buffer := rx_after
                 (List.replicate FRAME_LEN_MAX 0 ++ st.rx_buffer.drop FRAME_LEN_MAX) frame,
               needed := wrap32 (st.needed + 1),
               tx_delay_ms := 0 }
      else some (ignored FRAME_LEN_MAX st frame) := by
  have hclear := forLoopM_clear st.rx_buffer FRAME_LEN_MAX (by omega)
  have hread : dwt_readrxdata (List.replicate FRAME_LEN_MAX 0 ++ st.rx_buffer.drop FRAME_LEN_MAX)
      frame frame.length =
      some (rx_after (List.replicate FRAME_LEN_MAX 0 ++ st.rx_buffer.drop FRAME_LEN_MAX)
        frame) := by
    unfold dwt_readrxdata
    rw [if_pos (by
      simp only [List.length_append, List.length_replicate, List.length_drop]; omega)]
    rfl
  unfold rx_ok_cb
  simp only []
  rw [hclear]
  simp only []
  rw [if_pos hlen, hread]
  simp only []
  by_cases h : (((rx_after
      (List.replicate FRAME_LEN_MAX 0 ++ st.rx_buffer.drop FRAME_LEN_MAX) frame).getD 2 0).val
      : Int) = st.needed
  · rw [if_pos h, if_pos h]; rfl
  · rw [if_neg h, if_neg h]; rfl

end RxSniff

/-- Consecutive 66-byte slices of a list put back together. -/
theorem slices_flatten (xs : List Byte) (n : Nat) :
    ((List.range n).map (fun j => (xs.drop (j * 66)).take 66)).flatten = xs.take (n * 66) := by
  induction n with
  | zero => simp
  | succ n ih =>
    rw [List.range_succ, List.map_append, List.flatten_append, ih, Nat.succ_mul, List.take_add]
    simp

namespace Sender

theorem chunk_bytes_eq_slice (blob : List Byte) (total j : Nat)
    (hj : (j + 1) * 66 ≤ total) (hL : blob.length ≤ total) :
    chunk_bytes blob (j + 1) = ((padded blob total).drop (j * 66)).take 66 := by
  unfold chunk_bytes padded
  apply List.ext_getElem?
  intro i
  by_cases hi : i < 66
  · rw [List.getElem?_take_of_lt hi, List.getElem?_drop, List.getElem?_map,
      List.getElem?_range hi, List.getElem?_append, Nat.add_sub_cancel]
    simp only [Option.map_some']
    by_cases hlt : j * 66 + i < blob.length
    · rw [if_pos hlt, if_pos hlt, List.getD_eq_getElem?_getD, List.getElem?_eq_getElem hlt]
      rfl
    · rw [if_neg hlt, if_neg hlt, List.getElem?_replicate, if_pos (by omega)]
  · have h1 : ((List.range 66).map (fun i =>
        if (j + 1 - 1) * 66 + i < blob.length then blob.getD ((j + 1 - 1) * 66 + i) 0
        else (0xAA : Byte)))[i]? = none := by
      rw [List.getElem?_eq_none_iff, List.length_map, List.length_range]; omega
    have h2 : (List.take 66 (List.drop (j * 66)
        (blob ++ List.replicate (total - blob.length) (0xAA : Byte))))[i]? = none := by
      rw [List.getElem?_eq_none_iff, List.length_take]; omega
    rw [h1, h2]

end Sender

/-! ## Chunk store: `get_chunk` -/

namespace Sender

/-- C1 (code defect): for a chunk that starts at or beyond the end of the blob, `get_chunk`
stores nothing.  With a 3-byte blob, index 2 and an output buffer of 66 zero bytes, the
buffer still holds 66 zero bytes on return, where the specification asks for 66 bytes of `0xAA`. -/
theorem get_chunk_past_end_stores_nothing :
    get_chunk [1, 2, 3] 2 (List.replicate 66 0) = List.replicate 66 0 ∧
    get_chunk [1, 2, 3] 2 (List.replicate 66 0) ≠ List.replicate 66 0xAA := by
  decide

/-- C2: the chunks `1 .. ceil(L / 66)` of a blob of length `L`, concatenated, are the blob
followed by `0xAA` bytes up to a multiple of 66, whatever the output buffer held before
each call. -/
theorem chunks_reassemble_blob (blob : List Byte) (prior : Nat → List Byte)
    (hmax : blob.length < 2147483647) (hprior : ∀ j, (prior j).length = 66) :
    reassemble blob ((blob.length + 65) / 66) prior =
        blob ++ List.replicate (66 * ((blob.length + 65) / 66) - blob.length) 0xAA ∧
      (reassemble blob ((blob.length + 65) / 66) prior).length =
        66 * ((blob.length + 65) / 66) := by
  have hmain : reassemble blob ((blob.length + 65) / 66) prior =
      blob ++ List.replicate (66 * ((blob.length + 65) / 66) - blob.length) 0xAA := by
    unfold reassemble
    have hmap : (List.range ((blob.length + 65) / 66)).map
          (fun j => get_chunk blob ((j + 1 : Nat) : Int) (prior j)) =
        (List.range ((blob.length + 65) / 66)).map
          (fun j => ((padded blob (66 * ((blob.length + 65) / 66))).drop (j * 66)).take 66) := by
      apply List.map_congr_left
      intro j hj
      have hjn : j < (blob.length + 65) / 66 := List.mem_range.mp hj
      rw [get_chunk_in_range blob (prior j) (j + 1) (by omega) (hprior j)
        (by simp only [Nat.add_sub_cancel]; omega) (by omega)
        (by simp only [Nat.add_sub_cancel]; omega)]
      exact chunk_bytes_eq_slice blob _ j (by omega) (by omega)
    rw [hmap, slices_flatten]
    unfold padded
    rw [List.take_of_length_le (by
      simp only [List.length_append, List.length_replicate]; omega)]
  refine ⟨hmain, ?_⟩
  rw [hmain, List.length_append, List.length_replicate]
  omega

/-- C2, on the 200-byte blob of the specification: four chunks, the fourth being blob
bytes 198 and 199 followed by 64 bytes of `0xAA`. -/
theorem chunks_reassemble_blob_witness :
    (reassemble blob200 ((blob200.length + 65) / 66) (fun _ => List.replicate 66 0) =
        blob200 ++ List.replicate (66 * ((blob200.length + 65) / 66) - blob200.length) 0xAA ∧
      (reassemble blob200 ((blob200.length + 65) / 66) (fun _ => List.replicate 66 0)).length =
        66 * ((blob200.length + 65) / 66)) ∧
    (blob200.length + 65) / 66 = 4 ∧
    get_chunk blob200 1 (List.replicate 66 0) = (blob200.drop 0).take 66 ∧
    get_chunk blob200 2 (List.replicate 66 0) = (blob200.drop 66).take 66 ∧
    get_chunk blob200 3 (List.replicate 66 0) = (blob200.drop 132).take 66 ∧
    get_chunk blob200 4 (List.replicate 66 0) = blob200.drop 198 ++ List.replicate 64 0xAA :=
  ⟨chunks_reassemble_blob blob200 (fun _ => List.replicate 66 0) (by decide) (fun _ => rfl),
    by decide, by decide, by decide, by decide, by decide⟩

/-- C3: `get_chunk(0, chunk)` leaves 66 bytes of `0xFF` in `chunk`, whatever `chunk` held
and whatever the blob is: two blobs that differ in length or in any byte give the same
result, so no byte of the blob is used. -/
theorem get_chunk_zero_all_ff (blob other chunk : List Byte) (hlen : chunk.length = 66) :
    get_chunk blob 0 chunk = List.replicate 66 0xFF ∧
      get_chunk other 0 chunk = get_chunk blob 0 chunk := by
  rw [get_chunk_zero blob chunk hlen, get_chunk_zero other chunk hlen]
  exact ⟨rfl, rfl⟩

/-- C3 on a 3-byte blob, an empty blob and a buffer of 66 bytes `0x07`. -/
theorem get_chunk_zero_all_ff_witness :
    (List.replicate 66 (7 : Byte)).length = 66 ∧
    get_chunk [1, 2, 3] 0 (List.replicate 66 7) = List.replicate 66 0xFF ∧
      get_chunk [] 0 (List.replicate 66 7) = get_chunk [1, 2, 3] 0 (List.replicate 66 7) :=
  ⟨rfl, get_chunk_zero_all_ff [1, 2, 3] [] (List.replicate 66 7) rfl⟩

end Sender

/-! ## Responder: validation and response frame -/

namespace Sender

theorem is_poll_cons (b0 b1 a0 a1 a2 a3 a4 a5 a6 a7 e0 e1 c1 c2 : Byte)
    (h : is_poll [b0, b1, a0, a1, a2, a3, a4, a5, a6, a7, e0, e1, c1, c2]) :
    b0 = 0xC5 ∧ e0 = 0x43 ∧ e1 = 0x2 :=
  ⟨h.2.1, h.2.2.1, h.2.2.2⟩

theorem payload_of_response (b1 a0 a1 a2 a3 a4 a5 a6 a7 : Byte) (u : List Byte)
    (hu : u.length = 66) :
    ((response_bytes b1 a0 a1 a2 a3 a4 a5 a6 a7 u).drop 19).take 66 = u := by
  show (u ++ [0x00, 0x00]).take 66 = u
  rw [List.take_append_of_le_length (by omega), List.take_of_length_le (by omega)]

theorem length_response_bytes (b1 a0 a1 a2 a3 a4 a5 a6 a7 : Byte) (u : List Byte)
    (hu : u.length = 66) :
    (response_bytes b1 a0 a1 a2 a3 a4 a5 a6 a7 u).length = 87 := by
  unfold response_bytes
  rw [List.length_append, List.length_append, hu]
  rfl

/-- Frames that fit `rx_buffer`: a response is built and sent exactly for the frames that
pass the four checks; any other frame only lands in `rx_buffer`, the same for every blob. -/
theorem loop_iteration_responds_iff (blob : List Byte) (st : State) (frame : List Byte)
    (hwf : st.WF) (hfit : frame.length ≤ 32) :
    ((∃ st' resp, loop_iteration blob st (RxEvent.goodFrame frame) = some (st', some resp)) ↔
        is_poll frame) ∧
      (¬ is_poll frame → ∀ other : List Byte,
        loop_iteration other st (RxEvent.goodFrame frame) =
          some ({ st with rx_buffer := rx_after st.rx_buffer frame }, none)) := by
  refine ⟨⟨?_, ?_⟩, ?_⟩
  · rintro ⟨st', resp, h⟩
    by_contra hbad
    rw [loop_iteration_not_poll blob st frame hwf.2.2 hfit hbad] at h
    simp only [Option.some.injEq, Prod.mk.injEq] at h
    exact absurd h.2 (by simp)
  · intro hpoll
    obtain ⟨b0, b1, a0, a1, a2, a3, a4, a5, a6, a7, e0, e1, c1, c2, rfl⟩ :=
      frame_of_length_14 frame hpoll.1
    obtain ⟨rfl, rfl, rfl⟩ := is_poll_cons _ _ _ _ _ _ _ _ _ _ _ _ _ _ hpoll
    exact ⟨_, _, loop_iteration_poll blob st hwf b1 a0 a1 a2 a3 a4 a5 a6 a7 c1 c2⟩
  · intro hbad other
    exact loop_iteration_not_poll other st frame hwf.2.2 hfit hbad

/-- C4: the initiator's poll frame carrying sequence byte `s`, with any two check-sum
bytes, passes the responder's validation; the responder reads `s` back from
`rx_buffer[1]` and echoes it at offset 2 of the response. -/
theorem poll_round_trip (blob : List Byte) (st : State) (s c1 c2 : Byte) (hwf : st.WF) :
    is_poll (RxSniff.poll_on_air (RxSniff.tx_msg_init.set RxSniff.BLINK_FRAME_SN_IDX s) c1 c2) ∧
    poll_valid
        (RxSniff.poll_on_air (RxSniff.tx_msg_init.set RxSniff.BLINK_FRAME_SN_IDX s) c1 c2).length
        (rx_after st.rx_buffer
          (RxSniff.poll_on_air (RxSniff.tx_msg_init.set RxSniff.BLINK_FRAME_SN_IDX s) c1 c2))
      = true ∧
    ∃ st' resp,
      loop_iteration blob st (RxEvent.goodFrame
          (RxSniff.poll_on_air (RxSniff.tx_msg_init.set RxSniff.BLINK_FRAME_SN_IDX s) c1 c2)) =
        some (st', some resp) ∧
      st'.rx_buffer.getD 1 0 = s ∧ resp.getD DATA_FRAME_SN_IDX 0 = s := by
  have hframe :
      RxSniff.poll_on_air (RxSniff.tx_msg_init.set RxSniff.BLINK_FRAME_SN_IDX s) c1 c2 =
        [0xC5, s, 0x44, 0x45, 0x43, 0x41, 0x57, 0x41, 0x56, 0x45, 0x43, 0x02, c1, c2] := rfl
  rw [hframe]
  have hpoll : is_poll
      [0xC5, s, 0x44, 0x45, 0x43, 0x41, 0x57, 0x41, 0x56, 0x45, 0x43, 0x02, c1, c2] :=
    ⟨rfl, rfl, rfl, rfl⟩
  exact ⟨hpoll, (poll_valid_rx_after _ _).mpr hpoll, _, _,
    loop_iteration_poll blob st hwf s 0x44 0x45 0x43 0x41 0x57 0x41 0x56 0x45 c1 c2, rfl, rfl⟩

/-- C4 for sequence byte 200 and check-sum bytes `0x12 0x34`. -/
theorem poll_round_trip_witness :
    is_poll (RxSniff.poll_on_air
      (RxSniff.tx_msg_init.set RxSniff.BLINK_FRAME_SN_IDX 200) 0x12 0x34) ∧
    poll_valid
        (RxSniff.poll_on_air
          (RxSniff.tx_msg_init.set RxSniff.BLINK_FRAME_SN_IDX 200) 0x12 0x34).length
        (rx_after zeroed.rx_buffer
          (RxSniff.poll_on_air (RxSniff.tx_msg_init.set RxSniff.BLINK_FRAME_SN_IDX 200) 0x12 0x34))
      = true ∧
    ∃ st' resp,
      loop_iteration blob200 zeroed (RxEvent.goodFrame
          (RxSniff.poll_on_air
            (RxSniff.tx_msg_init.set RxSniff.BLINK_FRAME_SN_IDX 200) 0x12 0x34)) =
        some (st', some resp) ∧
      st'.rx_buffer.getD 1 0 = 200 ∧ resp.getD DATA_FRAME_SN_IDX 0 = 200 :=
  poll_round_trip blob200 zeroed 200 0x12 0x34 ⟨rfl, rfl, rfl⟩

/-- C5: for a frame that passes the validation the responder sends the 87 bytes of
`tx_msg`: `0x41 0x8C`, the poll's byte 1, `0x9A 0x60`, the poll's bytes 2 to 9, `'D' 'W'`,
`0x10 0x00 0x00 0x00`, the 66 bytes that `get_chunk` left in `user_input`, and two zero
bytes, whatever `tx_msg` and `user_input` held before. -/
theorem response_frame_layout (blob : List Byte) (st : State) (frame : List Byte)
    (hwf : st.WF) (hpoll : is_poll frame) :
    ∃ st', loop_iteration blob st (RxEvent.goodFrame frame) = some (st', some st'.tx_msg) ∧
      st'.user_input = get_chunk blob (((frame.getD 1 0).val : Int) - 5) st.user_input ∧
      st'.user_input.length = 66 ∧
      st'.tx_msg =
        [0x41, 0x8C, frame.getD 1 0, 0x9A, 0x60] ++ (frame.drop 2).take 8 ++
          [0x44, 0x57, 0x10, 0x00, 0x00, 0x00] ++ st'.user_input ++ [0x00, 0x00] ∧
      st'.tx_msg.length = 87 := by
  obtain ⟨b0, b1, a0, a1, a2, a3, a4, a5, a6, a7, e0, e1, c1, c2, rfl⟩ :=
    frame_of_length_14 frame hpoll.1
  obtain ⟨rfl, rfl, rfl⟩ := is_poll_cons _ _ _ _ _ _ _ _ _ _ _ _ _ _ hpoll
  have hu : (get_chunk blob ((b1.val : Int) - 5) st.user_input).length = 66 := by
    rw [get_chunk_length, hwf.2.1]
  exact ⟨answered blob st b1 a0 a1 a2 a3 a4 a5 a6 a7 c1 c2,
    loop_iteration_poll blob st hwf b1 a0 a1 a2 a3 a4 a5 a6 a7 c1 c2, rfl, hu, rfl,
    length_response_bytes b1 a0 a1 a2 a3 a4 a5 a6 a7 _ hu⟩

/-- C5 on the poll with sequence byte 6 received in zero-filled storage, the blob being
`blob200`. -/
theorem response_frame_layout_witness :
    zeroed.WF ∧
    is_poll (RxSniff.poll_on_air (RxSniff.tx_msg_init.set 1 6) 0 0) ∧
    ∃ st', loop_iteration blob200 zeroed
          (RxEvent.goodFrame (RxSniff.poll_on_air (RxSniff.tx_msg_init.set 1 6) 0 0)) =
        some (st', some st'.tx_msg) ∧
      st'.user_input = get_chunk blob200
        ((((RxSniff.poll_on_air (RxSniff.tx_msg_init.set 1 6) 0 0).getD 1 0).val : Int) - 5)
        zeroed.user_input ∧
      st'.user_input.length = 66 ∧
      st'.tx_msg =
        [0x41, 0x8C, (RxSniff.poll_on_air (RxSniff.tx_msg_init.set 1 6) 0 0).getD 1 0, 0x9A, 0x60]
          ++ ((RxSniff.poll_on_air (RxSniff.tx_msg_init.set 1 6) 0 0).drop 2).take 8 ++
          [0x44, 0x57, 0x10, 0x00, 0x00, 0x00] ++ st'.user_input ++ [0x00, 0x00] ∧
      st'.tx_msg.length = 87 :=
  ⟨⟨rfl, rfl, rfl⟩, ⟨rfl, rfl, rfl, rfl⟩,
    response_frame_layout blob200 zeroed (RxSniff.poll_on_air (RxSniff.tx_msg_init.set 1 6) 0 0)
      ⟨rfl, rfl, rfl⟩ ⟨rfl, rfl, rfl, rfl⟩⟩

/-- C6: the chunk sent for a valid poll with sequence byte `s` is chunk `s - 5`: 66 bytes
of `0xFF` for `s = 5`, and for `s > 5` with `(s - 6) * 66` inside the blob the blob bytes
from offset `(s - 6) * 66` on, with `0xAA` at and beyond the blob's length; the storage
left by earlier polls plays no part. -/
theorem response_payload (blob : List Byte) (st : State) (frame : List Byte)
    (hwf : st.WF) (hpoll : is_poll frame) (hL : blob.length < 2147483648) :
    ∃ st' resp, loop_iteration blob st (RxEvent.goodFrame frame) = some (st', some resp) ∧
      ((frame.getD 1 0).val = 5 → (resp.drop 19).take 66 = List.replicate 66 0xFF) ∧
      (5 < (frame.getD 1 0).val → ((frame.getD 1 0).val - 6) * 66 < blob.length →
        (resp.drop 19).take 66 =
          (List.range 66).map (fun i =>
            if ((frame.getD 1 0).val - 6) * 66 + i < blob.length then
              blob.getD (((frame.getD 1 0).val - 6) * 66 + i) 0
            else 0xAA)) := by
  obtain ⟨b0, b1, a0, a1, a2, a3, a4, a5, a6, a7, e0, e1, c1, c2, rfl⟩ :=
    frame_of_length_14 frame hpoll.1
  obtain ⟨rfl, rfl, rfl⟩ := is_poll_cons _ _ _ _ _ _ _ _ _ _ _ _ _ _ hpoll
  have hu : (get_chunk blob ((b1.val : Int) - 5) st.user_input).length = 66 := by
    rw [get_chunk_length, hwf.2.1]
  refine ⟨_, _, loop_iteration_poll blob st hwf b1 a0 a1 a2 a3 a4 a5 a6 a7 c1 c2, ?_, ?_⟩
  · intro h5
    have h5' : b1.val = 5 := h5
    rw [payload_of_response _ _ _ _ _ _ _ _ _ _ hu]
    have hidx : ((b1.val : Int) - 5) = 0 := by omega
    rw [hidx]
    exact get_chunk_zero blob st.user_input hwf.2.1
  · intro h5 hin
    have h5' : 5 < b1.val := h5
    have hin' : (b1.val - 6) * 66 < blob.length := hin
    have hb : b1.val < 256 := b1.isLt
    rw [payload_of_response _ _ _ _ _ _ _ _ _ _ hu]
    have hidx : ((b1.val : Int) - 5) = ((b1.val - 5 : Nat) : Int) := by omega
    have hk : b1.val - 5 - 1 = b1.val - 6 := by omega
    rw [hidx, get_chunk_in_range blob st.user_input (b1.val - 5) (by omega) hwf.2.1
      (by rw [hk]; exact hin') hL (by omega)]
    unfold chunk_bytes
    rw [hk]
    rfl

/-- C6 on `blob200`: sequence byte 9 requests chunk 4, which starts at offset 198. -/
theorem response_payload_witness :
    zeroed.WF ∧
    is_poll (RxSniff.poll_on_air (RxSniff.tx_msg_init.set 1 9) 0 0) ∧
    blob200.length < 2147483648 ∧
    ∃ st' resp, loop_iteration blob200 zeroed
          (RxEvent.goodFrame (RxSniff.poll_on_air (RxSniff.tx_msg_init.set 1 9) 0 0)) =
        some (st', some resp) ∧
      (((RxSniff.poll_on_air (RxSniff.tx_msg_init.set 1 9) 0 0).getD 1 0).val = 5 →
        (resp.drop 19).take 66 = List.replicate 66 0xFF) ∧
      (5 < ((RxSniff.poll_on_air (RxSniff.tx_msg_init.set 1 9) 0 0).getD 1 0).val →
        (((RxSniff.poll_on_air (RxSniff.tx_msg_init.set 1 9) 0 0).getD 1 0).val - 6) * 66
          < blob200.length →
        (resp.drop 19).take 66 =
          (List.range 66).map (fun i =>
            if (((RxSniff.poll_on_air (RxSniff.tx_msg_init.set 1 9) 0 0).getD 1 0).val - 6) * 66
                + i < blob200.length then
              blob200.getD
                ((((RxSniff.poll_on_air (RxSniff.tx_msg_init.set 1 9) 0 0).getD 1 0).val - 6) * 66
                  + i) 0
            else 0xAA)) :=
  ⟨⟨rfl, rfl, rfl⟩, ⟨rfl, rfl, rfl, rfl⟩, by decide,
    response_payload blob200 zeroed (RxSniff.poll_on_air (RxSniff.tx_msg_init.set 1 9) 0 0)
      ⟨rfl, rfl, rfl⟩ ⟨rfl, rfl, rfl, rfl⟩ (by decide)⟩

/-- C7 (code defect): a received frame of 33 bytes is copied whole into the 32-byte
`rx_buffer` (the guard before `dwt_readrxdata` is `frame_len <= 1023`), so the pass through
the loop body writes past the end of `rx_buffer` instead of leaving the other arrays
untouched. -/
theorem oversized_frame_overruns_rx_buffer :
    ¬ is_poll (List.replicate 33 0) ∧
    loop_iteration blob200 zeroed (RxEvent.goodFrame (List.replicate 33 0)) = none :=
  ⟨fun h => absurd h.1 (by decide),
    loop_iteration_fault blob200 zeroed (List.replicate 33 0) rfl (by decide) (by decide)⟩

/-- C10 (as stated, refuted): for the valid poll with sequence byte 0 the chunk index is
`0 - 5 = -5`, `get_chunk` stores nothing, and the response carries what `user_input` held:
two storages that differ only in `user_input` send different frames. -/
theorem response_depends_on_stale_chunk :
    zeroed.WF ∧ stale.WF ∧
    is_poll (RxSniff.poll_on_air RxSniff.tx_msg_init 0 0) ∧
    (loop_iteration blob200 zeroed
        (RxEvent.goodFrame (RxSniff.poll_on_air RxSniff.tx_msg_init 0 0))).map Prod.snd ≠
      (loop_iteration blob200 stale
        (RxEvent.goodFrame (RxSniff.poll_on_air RxSniff.tx_msg_init 0 0))).map Prod.snd ∧
    get_chunk blob200 (-5) zeroed.user_input ≠ get_chunk blob200 (-5) stale.user_input := by
  refine ⟨⟨rfl, rfl, rfl⟩, ⟨rfl, rfl, rfl⟩, ⟨rfl, rfl, rfl, rfl⟩, ?_, ?_⟩
  · decide
  · decide

/-- C10 (amended): for a valid poll whose sequence byte `s` is 5, or is above 5 with
`(s - 6) * 66` inside the blob, the frame sent is the same from any two storages of the
responder; for `s < 5` the chunk index is negative, `get_chunk` stores nothing and the
payload is the previous content of `user_input`. -/
theorem response_independent_of_history (blob : List Byte) (st1 st2 : State)
    (frame : List Byte) (hwf1 : st1.WF) (hwf2 : st2.WF) (hpoll : is_poll frame)
    (hL : blob.length < 2147483648) :
    (((frame.getD 1 0).val = 5 ∨
        (5 < (frame.getD 1 0).val ∧ ((frame.getD 1 0).val - 6) * 66 < blob.length)) →
      ∃ st1' st2' resp, resp.length = 87 ∧
        loop_iteration blob st1 (RxEvent.goodFrame frame) = some (st1', some resp) ∧
        loop_iteration blob st2 (RxEvent.goodFrame frame) = some (st2', some resp)) ∧
    ((frame.getD 1 0).val < 5 →
      ∃ st1' resp, loop_iteration blob st1 (RxEvent.goodFrame frame) = some (st1', some resp) ∧
        (resp.drop 19).take 66 = st1.user_input) := by
  obtain ⟨b0, b1, a0, a1, a2, a3, a4, a5, a6, a7, e0, e1, c1, c2, rfl⟩ :=
    frame_of_length_14 frame hpoll.1
  obtain ⟨rfl, rfl, rfl⟩ := is_poll_cons _ _ _ _ _ _ _ _ _ _ _ _ _ _ hpoll
  have hb : b1.val < 256 := b1.isLt
  constructor
  · intro hs
    have hs' : b1.val = 5 ∨ (5 < b1.val ∧ (b1.val - 6) * 66 < blob.length) := hs
    have hsame : get_chunk blob ((b1.val : Int) - 5) st1.user_input =
        get_chunk blob ((b1.val : Int) - 5) st2.user_input := by
      rcases hs' with h5 | ⟨h5, hin⟩
      · have hidx : ((b1.val : Int) - 5) = 0 := by omega
        rw [hidx, get_chunk_zero blob _ hwf1.2.1, get_chunk_zero blob _ hwf2.2.1]
      · have hidx : ((b1.val : Int) - 5) = ((b1.val - 5 : Nat) : Int) := by omega
        have hk : b1.val - 5 - 1 = b1.val - 6 := by omega
        rw [hidx,
          get_chunk_in_range blob st1.user_input (b1.val - 5) (by omega) hwf1.2.1
            (by rw [hk]; exact hin) hL (by omega),
          get_chunk_in_range blob st2.user_input (b1.val - 5) (by omega) hwf2.2.1
            (by rw [hk]; exact hin) hL (by omega)]
    refine ⟨answered blob st1 b1 a0 a1 a2 a3 a4 a5 a6 a7 c1 c2,
      answered blob st2 b1 a0 a1 a2 a3 a4 a5 a6 a7 c1 c2,
      response_bytes b1 a0 a1 a2 a3 a4 a5 a6 a7
        (get_chunk blob ((b1.val : Int) - 5) st1.user_input),
      ?_, loop_iteration_poll blob st1 hwf1 b1 a0 a1 a2 a3 a4 a5 a6 a7 c1 c2, ?_⟩
    · exact length_response_bytes _ _ _ _ _ _ _ _ _ _ (by rw [get_chunk_length, hwf1.2.1])
    · rw [hsame]
      exact loop_iteration_poll blob st2 hwf2 b1 a0 a1 a2 a3 a4 a5 a6 a7 c1 c2
  · intro hs
    have hs' : b1.val < 5 := hs
    refine ⟨_, _, loop_iteration_poll blob st1 hwf1 b1 a0 a1 a2 a3 a4 a5 a6 a7 c1 c2, ?_⟩
    rw [get_chunk_neg blob st1.user_input _ (by omega)]
    exact payload_of_response _ _ _ _ _ _ _ _ _ _ hwf1.2.1

/-- C10 (amended) on `blob200`, the poll with sequence byte 6 and two storages that differ
in `user_input`. -/
theorem response_independent_of_history_witness :
    zeroed.WF ∧ stale.WF ∧
    is_poll (RxSniff.poll_on_air (RxSniff.tx_msg_init.set 1 6) 0 0) ∧
    blob200.length < 2147483648 ∧
    ((((RxSniff.poll_on_air (RxSniff.tx_msg_init.set 1 6) 0 0).getD 1 0).val = 5 ∨
        (5 < ((RxSniff.poll_on_air (RxSniff.tx_msg_init.set 1 6) 0 0).getD 1 0).val ∧
          (((RxSniff.poll_on_air (RxSniff.tx_msg_init.set 1 6) 0 0).getD 1 0).val - 6) * 66
            < blob200.length)) →
      ∃ st1' st2' resp, resp.length = 87 ∧
        loop_iteration blob200 zeroed
            (RxEvent.goodFrame (RxSniff.poll_on_air (RxSniff.tx_msg_init.set 1 6) 0 0)) =
          some (st1', some resp) ∧
        loop_iteration blob200 stale
            (RxEvent.goodFrame (RxSniff.poll_on_air (RxSniff.tx_msg_init.set 1 6) 0 0)) =
          some (st2', some resp)) ∧
    (((RxSniff.poll_on_air (RxSniff.tx_msg_init.set 1 6) 0 0).getD 1 0).val < 5 →
      ∃ st1' resp, loop_iteration blob200 zeroed
            (RxEvent.goodFrame (RxSniff.poll_on_air (RxSniff.tx_msg_init.set 1 6) 0 0)) =
          some (st1', some resp) ∧
        (resp.drop 19).take 66 = zeroed.user_input) :=
  ⟨⟨rfl, rfl, rfl⟩, ⟨rfl, rfl, rfl⟩, ⟨rfl, rfl, rfl, rfl⟩, by decide,
    response_independent_of_history blob200 zeroed stale
      (RxSniff.poll_on_air (RxSniff.tx_msg_init.set 1 6) 0 0)
      ⟨rfl, rfl, rfl⟩ ⟨rfl, rfl, rfl⟩ ⟨rfl, rfl, rfl, rfl⟩ (by decide)⟩

end Sender

/-! ## Initiator: `rx_ok_cb` -/

namespace RxSniff

theorem rx_ok_cb_too_long (FRAME_LEN_MAX : Nat) (st : State) (frame : List Byte)
    (hrx : st.rx_buffer.length = 92) (hmax : FRAME_LEN_MAX ≤ 92)
    (hlen : FRAME_LEN_MAX < frame.length) :
    rx_ok_cb FRAME_LEN_MAX st frame =
      some { tx_msg := st.tx_msg,
             rx_buffer := List.replicate FRAME_LEN_MAX 0 ++ st.rx_buffer.drop FRAME_LEN_MAX,
             needed := st.needed,
             tx_delay_ms := 0 } := by
  have hclear := forLoopM_clear st.rx_buffer FRAME_LEN_MAX (by omega)
  unfold rx_ok_cb
  simp only []
  rw [hclear]
  simp only []
  rw [if_neg (by omega)]
  rfl

theorem toU8_val (x : Int) : (((toU8 x).val : Nat) : Int) = x % 256 := by
  show (((x % 256).toNat : Nat) : Int) = x % 256
  omega

/-- Sequence check of `rx_ok_cb` while the clearing loop stays inside `rx_buffer`
(`FRAME_LEN_MAX ≤ 92`): a frame of length at most `FRAME_LEN_MAX` whose byte 2 equals
`needed[0]` sets `needed[0]` to `needed[0] + 1` and byte 1 of the poll frame to that value
reduced to a `uint8_t`; a frame whose byte 2 differs changes neither. -/
theorem rx_ok_cb_sequence_check (FRAME_LEN_MAX : Nat) (st : State) (frame : List Byte)
    (hwf : st.WF) (hmax : FRAME_LEN_MAX ≤ 92)
    (h0 : 0 ≤ st.needed) (h255 : st.needed ≤ 255) (h3 : 3 ≤ frame.length) :
    (frame.length ≤ FRAME_LEN_MAX → ((frame.getD 2 0).val : Int) = st.needed →
      ∃ rx, rx_ok_cb FRAME_LEN_MAX st frame =
          some { tx_msg := st.tx_msg.set BLINK_FRAME_SN_IDX (toU8 (st.needed + 1)),
                 rx_buffer := rx,
                 needed := st.needed + 1,
                 tx_delay_ms := 0 } ∧
        (((toU8 (st.needed + 1)).val : Nat) : Int) = (st.needed + 1) % 256 ∧
        (st.tx_msg.set BLINK_FRAME_SN_IDX (toU8 (st.needed + 1))).length = 14 ∧
        ∀ j, j ≠ 1 →
          (st.tx_msg.set BLINK_FRAME_SN_IDX (toU8 (st.needed + 1))).getD j 0 =
            st.tx_msg.getD j 0) ∧
    (((frame.getD 2 0).val : Int) ≠ st.needed →
      ∃ rx, rx_ok_cb FRAME_LEN_MAX st frame =
          some { tx_msg := st.tx_msg, rx_buffer := rx, needed := st.needed,
                 tx_delay_ms := 0 }) := by
  constructor
  · intro hlen heq
    have hget := getD_rx_after
      (List.replicate FRAME_LEN_MAX 0 ++ st.rx_buffer.drop FRAME_LEN_MAX) frame 2 (by omega)
    have hw : wrap32 (st.needed + 1) = st.needed + 1 := wrap32_eq _ (by omega) (by omega)
    refine ⟨rx_after (List.replicate FRAME_LEN_MAX 0 ++ st.rx_buffer.drop FRAME_LEN_MAX) frame,
      ?_, toU8_val _, ?_, ?_⟩
    · rw [rx_ok_cb_read FRAME_LEN_MAX st frame hwf.2 hmax hlen, hget, if_pos heq, hw]
    · rw [List.length_set]; exact hwf.1
    · intro j hj
      simp only [List.getD_eq_getElem?_getD, BLINK_FRAME_SN_IDX]
      rw [List.getElem?_set_ne (Ne.symm hj)]
  · intro hne
    by_cases hlen : frame.length ≤ FRAME_LEN_MAX
    · have hget := getD_rx_after
        (List.replicate FRAME_LEN_MAX 0 ++ st.rx_buffer.drop FRAME_LEN_MAX) frame 2 (by omega)
      refine ⟨rx_after (List.replicate FRAME_LEN_MAX 0 ++ st.rx_buffer.drop FRAME_LEN_MAX)
        frame, ?_⟩
      rw [rx_ok_cb_read FRAME_LEN_MAX st frame hwf.2 hmax hlen, hget, if_neg hne]
      rfl
    · exact ⟨_, rx_ok_cb_too_long FRAME_LEN_MAX st frame hwf.2 hmax (by omega)⟩

/-- The sequence check with `FRAME_LEN_MAX = 92` on the storage at start-up
(`needed[0] = 0`): the response echoing 0 is accepted, the response echoing 7 is not. -/
theorem rx_ok_cb_sequence_check_witness :
    init.WF ∧
    (∃ rx, rx_ok_cb 92 init (response_echoing 0) =
        some { tx_msg := tx_msg_init.set 1 1, rx_buffer := rx, needed := 1,
               tx_delay_ms := 0 }) ∧
    (∃ rx, rx_ok_cb 92 init (response_echoing 7) =
        some { tx_msg := tx_msg_init, rx_buffer := rx, needed := 0, tx_delay_ms := 0 }) :=
  ⟨⟨rfl, rfl⟩,
    (((rx_ok_cb_sequence_check 92 init (response_echoing 0) ⟨rfl, rfl⟩ (by decide)
      (by decide) (by decide) (by decide)).1 (by decide) (by decide)).imp
        (fun _ h => h.1)),
    (rx_ok_cb_sequence_check 92 init (response_echoing 7) ⟨rfl, rfl⟩ (by decide)
      (by decide) (by decide) (by decide)).2 (by decide)⟩

theorem length_rx_after_cleared (FRAME_LEN_MAX : Nat) (rx_buffer frame : List Byte)
    (hrx : rx_buffer.length = 92) (hmax : FRAME_LEN_MAX ≤ 92)
    (hlen : frame.length ≤ FRAME_LEN_MAX) :
    (rx_after (List.replicate FRAME_LEN_MAX 0 ++ rx_buffer.drop FRAME_LEN_MAX) frame).length
      = 92 := by
  unfold rx_after
  simp only [List.length_append, List.length_map, List.length_range, List.length_drop,
    List.length_replicate]
  omega

theorem set_getD_self (l : List Byte) (i : Nat) (v : Byte) (hi : i < l.length)
    (hv : l.getD i 0 = v) : l.set i v = l := by
  subst hv
  apply List.ext_getElem?
  intro j
  by_cases hj : i = j
  · subst hj
    rw [List.getElem?_set_self hi, List.getD_eq_getElem l 0 hi, List.getElem?_eq_getElem hi]
  · rw [List.getElem?_set_ne hj]

/-- While `needed[0]` stays below 256, every response echoing the poll's sequence byte is
accepted. -/
theorem feed_accepts (FRAME_LEN_MAX : Nat) (h87 : 87 ≤ FRAME_LEN_MAX)
    (hmax : FRAME_LEN_MAX ≤ 92) (k : Nat) :
    ∀ st : State, st.WF → 0 ≤ st.needed → st.needed + (k : Int) ≤ 256 →
      st.tx_msg.getD BLINK_FRAME_SN_IDX 0 = toU8 st.needed →
      ∃ st', feed FRAME_LEN_MAX k st = some st' ∧ st'.WF ∧
        st'.needed = st.needed + (k : Int) ∧
        st'.tx_msg = st.tx_msg.set BLINK_FRAME_SN_IDX (toU8 (st.needed + (k : Int))) := by
  induction k with
  | zero =>
    intro st hwf h0 hk htx
    refine ⟨st, rfl, hwf, by simp, ?_⟩
    rw [set_getD_self st.tx_msg BLINK_FRAME_SN_IDX _ (by rw [hwf.1]; decide)]
    rw [htx]; simp
  | succ k ih =>
    intro st hwf h0 hk htx
    have hk' : st.needed + (k : Int) + 1 ≤ 256 := by push_cast at hk; omega
    have hlen : (response_echoing (st.tx_msg.getD BLINK_FRAME_SN_IDX 0)).length ≤ FRAME_LEN_MAX :=
      h87
    have hget := getD_rx_after
      (List.replicate FRAME_LEN_MAX 0 ++ st.rx_buffer.drop FRAME_LEN_MAX)
      (response_echoing (st.tx_msg.getD BLINK_FRAME_SN_IDX 0)) 2
      (show 2 < 87 by decide)
    have hecho : (response_echoing (st.tx_msg.getD BLINK_FRAME_SN_IDX 0)).getD 2 0 =
        st.tx_msg.getD BLINK_FRAME_SN_IDX 0 := rfl
    have hval : (((toU8 st.needed).val : Nat) : Int) = st.needed := by
      rw [toU8_val]; omega
    have hw : wrap32 (st.needed + 1) = st.needed + 1 := wrap32_eq _ (by omega) (by omega)
    have hstep := rx_ok_cb_read FRAME_LEN_MAX st
      (response_echoing (st.tx_msg.getD BLINK_FRAME_SN_IDX 0)) hwf.2 hmax hlen
    rw [hget, hecho, htx, if_pos hval, hw] at hstep
    obtain ⟨st', hfeed, hwf', hneeded, htx'⟩ := ih
      { tx_msg := st.tx_msg.set BLINK_FRAME_SN_IDX (toU8 (st.needed + 1)),
        rx_buffer := rx_after (List.replicate FRAME_LEN_MAX 0 ++ st.rx_buffer.drop FRAME_LEN_MAX)
          (response_echoing (toU8 st.needed)),
        needed := st.needed + 1,
        tx_delay_ms := 0 }
      ⟨by rw [List.length_set]; exact hwf.1,
        length_rx_after_cleared FRAME_LEN_MAX st.rx_buffer _ hwf.2 hmax h87⟩
      (by show 0 ≤ st.needed + 1; omega)
      (by show st.needed + 1 + (k : Int) ≤ 256; omega)
      (by
        show (st.tx_msg.set BLINK_FRAME_SN_IDX (toU8 (st.needed + 1))).getD BLINK_FRAME_SN_IDX 0
          = toU8 (st.needed + 1)
        rw [List.getD_eq_getElem?_getD, List.getElem?_set_self (by rw [hwf.1]; decide)]
        rfl)
    refine ⟨st', ?_, hwf', ?_, ?_⟩
    · show (match rx_ok_cb FRAME_LEN_MAX st
          (response_echoing (st.tx_msg.getD BLINK_FRAME_SN_IDX 0)) with
        | none => none
        | some st' => feed FRAME_LEN_MAX k st') = some st'
      rw [htx, hstep]
      exact hfeed
    · rw [hneeded]; push_cast; show st.needed + 1 + (k : Int) = _; omega
    · rw [htx', List.set_set]
      have : st.needed + 1 + (k : Int) = st.needed + ((k + 1 : Nat) : Int) := by
        push_cast; omega
      show st.tx_msg.set BLINK_FRAME_SN_IDX (toU8 (st.needed + 1 + (k : Int))) = _
      rw [this]

/-- C9 (code defect): `needed[0]` is an `int32_t` and does not wrap at 256.  With
`FRAME_LEN_MAX = 92`, after 256 responses each echoing the current poll's sequence byte,
`needed[0]` is 256 while the poll's sequence byte is 0; the next response, echoing 0, is
not accepted: `needed[0]` stays 256 and the poll frame is unchanged. -/
theorem sequence_counter_does_not_wrap :
    ∃ st256 st257, feed 92 256 init = some st256 ∧
      st256.needed = 256 ∧ st256.tx_msg.getD BLINK_FRAME_SN_IDX 0 = 0 ∧
      rx_ok_cb 92 st256 (response_echoing (st256.tx_msg.getD BLINK_FRAME_SN_IDX 0)) =
        some st257 ∧
      st257.needed = 256 ∧ st257.tx_msg = st256.tx_msg := by
  obtain ⟨st256, hfeed, hwf, hneeded, htx⟩ :=
    feed_accepts 92 (by decide) (by decide) 256 init ⟨rfl, rfl⟩ (by decide) (by decide) rfl
  have hn : st256.needed = 256 := by rw [hneeded]; rfl
  have hb : st256.tx_msg.getD BLINK_FRAME_SN_IDX 0 = 0 := by rw [htx]; rfl
  have hget := getD_rx_after
    (List.replicate 92 0 ++ st256.rx_buffer.drop 92) (response_echoing 0) 2 (by decide)
  have hne : ¬ ((((response_echoing 0).getD 2 0).val : Nat) : Int) = st256.needed := by
    rw [hn]; decide
  refine ⟨st256, ignored 92 st256 (response_echoing 0), hfeed, hn, hb, ?_, hn, rfl⟩
  rw [hb, rx_ok_cb_read 92 st256 (response_echoing 0) hwf.2 (by decide) (by decide), hget,
    if_neg hne]

/-- With `FRAME_LEN_MAX` above 92 the clearing loop of `rx_ok_cb` runs past the end of
`rx_buffer[92]`, whatever the frame. -/
theorem rx_ok_cb_overrun (FRAME_LEN_MAX : Nat) (st : State) (frame : List Byte)
    (hrx : st.rx_buffer.length = 92) (hbig : 92 < FRAME_LEN_MAX) :
    rx_ok_cb FRAME_LEN_MAX st frame = none := by
  have hclear := forLoopM_clear_fault st.rx_buffer FRAME_LEN_MAX (by omega)
  unfold rx_ok_cb
  simp only []
  rw [hclear]

/-- With `needed[0] = 255` and `87 ≤ FRAME_LEN_MAX ≤ 92`, the response echoing 255 leaves
`needed[0] = 256` and sequence byte 0 in the poll frame. -/
theorem rx_ok_cb_from_255 (FRAME_LEN_MAX : Nat) (st : State) (hwf : st.WF)
    (h87 : 87 ≤ FRAME_LEN_MAX) (hmax : FRAME_LEN_MAX ≤ 92) (hn : st.needed = 255) :
    rx_ok_cb FRAME_LEN_MAX st (response_echoing 255) =
      some { tx_msg := st.tx_msg.set BLINK_FRAME_SN_IDX 0,
             rx_buffer := rx_after
               (List.replicate FRAME_LEN_MAX 0 ++ st.rx_buffer.drop FRAME_LEN_MAX)
               (response_echoing 255),
             needed := 256,
             tx_delay_ms := 0 } := by
  have hget := getD_rx_after
    (List.replicate FRAME_LEN_MAX 0 ++ st.rx_buffer.drop FRAME_LEN_MAX)
    (response_echoing 255) 2 (show 2 < 87 by decide)
  have hecho : (response_echoing 255).getD 2 0 = 255 := rfl
  have hread := rx_ok_cb_read FRAME_LEN_MAX st (response_echoing 255) hwf.2 hmax h87
  have heq : (((255 : Byte).val : Nat) : Int) = st.needed := by rw [hn]; rfl
  have hw : wrap32 (st.needed + 1) = 256 := by rw [hn]; rfl
  rw [hget, hecho, if_pos heq, hw] at hread
  exact hread

/-- C8 (code defect): at expected value 255 the good-frame handler does not leave the
expected value equal to the sequence byte it writes.  With `FRAME_LEN_MAX = 92`, from
`needed[0] = 255` the 87-byte response echoing 255 is accepted, `needed[0]` becomes 256
and byte 1 of the poll frame becomes 0, the other 13 bytes being kept: the expected value
is neither 256 in the poll frame nor 0 in `needed[0]`.  With `FRAME_LEN_MAX = 127` the
clearing loop runs past the 92-byte `rx_buffer`.  The storage with `needed[0] = 255` is the
one reached from start-up by 255 responses each echoing the current poll. -/
theorem expected_255_splits_counter_and_poll :
    at255.WF ∧
    (response_echoing 255).length = 87 ∧
    ((((response_echoing 255).getD 2 0).val : Nat) : Int) = at255.needed ∧
    (rx_ok_cb 92 at255 (response_echoing 255)).map
        (fun st => (st.needed, st.tx_msg, st.tx_delay_ms)) =
      some (256, tx_msg_init.set BLINK_FRAME_SN_IDX 0, 0) ∧
    (tx_msg_init.set BLINK_FRAME_SN_IDX 0).getD BLINK_FRAME_SN_IDX 0 = 0 ∧
    rx_ok_cb 127 at255 (response_echoing 255) = none ∧
    (∃ st255 st256, feed 92 255 init = some st255 ∧
      st255.needed = at255.needed ∧ st255.tx_msg = at255.tx_msg ∧
      rx_ok_cb 92 st255 (response_echoing 255) = some st256 ∧
      st256.needed = 256 ∧ st256.tx_msg.getD BLINK_FRAME_SN_IDX 0 = 0) := by
  refine ⟨⟨rfl, rfl⟩, rfl, rfl, ?_, rfl, ?_, ?_⟩
  · rw [rx_ok_cb_from_255 92 at255 ⟨rfl, rfl⟩ (by decide) (by decide) rfl]
    rfl
  · exact rx_ok_cb_overrun 127 at255 (response_echoing 255) rfl (by decide)
  · obtain ⟨st255, hfeed, hwf, hneeded, htx⟩ :=
      feed_accepts 92 (by decide) (by decide) 255 init ⟨rfl, rfl⟩ (by decide) (by decide) rfl
    have hn : st255.needed = 255 := by rw [hneeded]; rfl
    have ht : st255.tx_msg = at255.tx_msg := by rw [htx]; rfl
    refine ⟨st255, _, hfeed, hn, ht,
      rx_ok_cb_from_255 92 st255 hwf (by decide) (by decide) hn, rfl, ?_⟩
    show (st255.tx_msg.set BLINK_FRAME_SN_IDX 0).getD BLINK_FRAME_SN_IDX 0 = 0
    rw [ht]
    rfl

end RxSniff
